import Mathlib

/-!
# Verification of `evergit.py` (repository synchronization decision engine)

A shallow embedding of the core of `src/evergit.py` into Lean 4.

Strings are modelled as `List Char` (`Str` below); Python string methods
(`rstrip`, `split`, `strip`, `replace`) are modelled character-exactly.
The external world (git subprocesses via `subprocess.run`, filesystem
existence probes, `mkdir`) is modelled by an environment `GitEnv` of
oracles, and each embedded function additionally returns the trace of git
commands it issued, so that claims about which commands run are statable.
Python exceptions that escape a function (`IndexError` from list indexing)
are modelled with `Option`.
-/

set_option autoImplicit false

/-- Strings modelled as character lists. -/
abbrev Str := List Char

/-- Python whitespace predicate used by `str.strip()` (ASCII subset). -/
def pyIsSpace (c : Char) : Bool :=
  c == ' ' || c == '\t' || c == '\n' || c == '\r' || c == '\x0b' || c == '\x0c'

/-- Python `s.strip()`: remove leading and trailing whitespace. -/
def pyStrip (s : Str) : Str :=
  ((s.dropWhile pyIsSpace).reverse.dropWhile pyIsSpace).reverse

/-- Python `s.rstrip(c)` for a single-character set: drop trailing copies of `c`. -/
def pyRstrip (c : Char) (s : Str) : Str :=
  (s.reverse.dropWhile (fun x => x == c)).reverse

/-- Python `s.split(sep)` for a one-character separator: every occurrence
splits, empty fields are kept, and `"".split(sep) == [""]`. -/
def pySplit (sep : Char) : Str → List Str
  | [] => [[]]
  | c :: rest =>
    if c = sep then [] :: pySplit sep rest
    else
      match pySplit sep rest with
      | [] => [[c]]
      | h :: t => (c :: h) :: t

/-- Python `s.replace(c, rep)` for a one-character pattern. -/
def replaceChar (c : Char) (rep : Str) : Str → Str
  | [] => []
  | x :: xs => if x = c then rep ++ replaceChar c rep xs else x :: replaceChar c rep xs

/-- The sanitization at the end of `repo_name_from_url` (evergit.py line 267):
`combined.replace(":", "__").replace("@", "__").replace(" ", "_")`. -/
def sanitize (s : Str) : Str :=
  replaceChar ' ' ([ '_' ]) (replaceChar '@' ([ '_', '_' ]) (replaceChar ':' ([ '_', '_' ]) s))

/-- `repo_name_from_url` (evergit.py lines 252-267).
`name = url.rstrip("/").split("/")[-1]`;
`owner = url.rstrip("/").split("/")[-2] if "/" in url else ""`;
`combined = f"{owner}__{name}" if owner else name`; then sanitize.
The `[-2]` index raises `IndexError` when `"/" in url` but the rstripped
url splits into fewer than two parts; that escape is modelled as `none`. -/
def repo_name_from_url (url : Str) : Option Str :=
  let parts := pySplit '/' (pyRstrip '/' url)
  let name := parts.getLastD []
  if '/' ∈ url then
    if 2 ≤ parts.length then
      let owner := parts.dropLast.getLastD []
      if owner ≠ [] then
        some (sanitize (owner ++ ([ '_', '_' ]) ++ name))
      else
        some (sanitize name)
    else
      none
  else
    some (sanitize name)

/-- Result of `subprocess.run` as inspected by the code: return code and
captured output streams. -/
structure CmdResult where
  returncode : Int
  stdout : Str
  stderr : Str
deriving DecidableEq

/-- One git invocation: full argv (with the leading `git`) and the working
directory passed to `subprocess.run` (`None` for no cwd). -/
structure GitCall where
  args : List Str
  cwd : Option Str
deriving DecidableEq

/-- The external world: a deterministic oracle for subprocess results, path
existence, and whether `mkdir(parents=True, exist_ok=True)` succeeds. -/
structure GitEnv where
  exec : List Str → Option Str → CmdResult
  pathExists : Str → Bool
  mkdirOk : Str → Bool

/-- Python `Path` `/` join, for the joins the code performs. -/
def pjoin (a b : Str) : Str := a ++ '/' :: b

/-- `run_git_command` (evergit.py lines 120-133) with `check=False`, as every
caller in the sync core passes: prepends `git` to the argv and runs it.
Returns the result together with the one-element trace of the call.
(The `except CalledProcessError` branch is dead under `check=False`.) -/
def run_git_command (env : GitEnv) (args : List Str) (cwd : Option Str) :
    CmdResult × List GitCall :=
  (env.exec (("git".data) :: args) cwd, [{ args := ("git".data) :: args, cwd := cwd }])

/-- `is_git_repo` (evergit.py lines 136-144): false if the path does not
exist; true if `path/.git` exists; otherwise the exit status of
`git rev-parse --is-inside-work-tree` run in the path decides. -/
def is_git_repo (env : GitEnv) (path : Str) : Bool × List GitCall :=
  if env.pathExists path = false then (false, [])
  else if env.pathExists (pjoin path (".git".data)) then (true, [])
  else
    let r := run_git_command env ([ "rev-parse".data, "--is-inside-work-tree".data ]) (some path)
    (r.1.returncode == 0, r.2)

/-- `has_uncommitted_changes` (evergit.py lines 147-151): runs
`git status --porcelain` with `check=False` and returns whether the stripped
stdout is non-empty.  The return code is not inspected. -/
def has_uncommitted_changes (env : GitEnv) (path : Str) : Bool × List GitCall :=
  let r := run_git_command env ([ "status".data, "--porcelain".data ]) (some path)
  (!(pyStrip r.1.stdout).isEmpty, r.2)

/-- `safe_clone` (evergit.py lines 154-163): runs
`git clone --mirror <url> <dest>` with no cwd; true iff exit status 0. -/
def safe_clone (env : GitEnv) (repo_url : Str) (dest : Str) : Bool × List GitCall :=
  let r := run_git_command env ([ "clone".data, "--mirror".data, repo_url, dest ]) none
  (r.1.returncode == 0, r.2)

/-- The update cascade ending `safe_pull` (evergit.py lines 184-204): try
`git remote update`, then `git fetch --all`, then `git pull`, each with
cwd = dest, stopping at the first exit status 0; false if all three fail.
`acc` is the trace accumulated by the earlier probes of `safe_pull`. -/
def safe_pull_update (env : GitEnv) (dest : Str) (acc : List GitCall) :
    Bool × List GitCall :=
  let r1 := run_git_command env ([ "remote".data, "update".data ]) (some dest)
  if r1.1.returncode == 0 then (true, acc ++ r1.2)
  else
    let r2 := run_git_command env ([ "fetch".data, "--all".data ]) (some dest)
    if r2.1.returncode == 0 then (true, acc ++ r1.2 ++ r2.2)
    else
      let r3 := run_git_command env ([ "pull".data ]) (some dest)
      (r3.1.returncode == 0, acc ++ r1.2 ++ r2.2 ++ r3.2)

/-- `safe_pull` (evergit.py lines 166-204): skip (returning false) when the
path is not a git repository, or when it has a working tree or bare-repo
marker (`dest/.git` or `dest/HEAD` exists) and uncommitted changes are
detected; otherwise run the update cascade. -/
def safe_pull (env : GitEnv) (dest : Str) : Bool × List GitCall :=
  let v := is_git_repo env dest
  if v.1 = false then (false, v.2)
  else if env.pathExists (pjoin dest (".git".data))
       || env.pathExists (pjoin dest ("HEAD".data)) then
    let d := has_uncommitted_changes env dest
    if d.1 then (false, v.2 ++ d.2)
    else safe_pull_update env dest (v.2 ++ d.2)
  else safe_pull_update env dest v.2

/-- The action `process_repo` chose for a repository, read off from which
branch of evergit.py lines 219-246 it took. -/
inductive RepoAction
  | actClone
  | actPull
  | actSkip
deriving DecidableEq

/-- Observable outcome of `process_repo` for one repository: the branch
taken, the git commands issued, whether the branch succeeded (reached the
end of the function), and whether the inter-repository sleep ran. -/
structure ProcOut where
  action : RepoAction
  calls : List GitCall
  success : Bool
  slept : Bool
deriving DecidableEq

/-- `process_repo` (evergit.py lines 210-249): resolve the destination as
`backup_root / repo_name_from_url(url)`; clone if absent (after creating the
parent directory, which is `backup_root` since the stem contains no `/`),
otherwise skip when invalid or dirty, else update via `safe_pull`.
`_sleep(cfg)` at the end runs only when the branch succeeded.  `none` models
the `IndexError` escaping from `repo_name_from_url`. -/
def process_repo (env : GitEnv) (repo_url : Str) (backup_root : Str) : Option ProcOut :=
  match repo_name_from_url repo_url with
  | none => none
  | some stem =>
    let dest := pjoin backup_root stem
    if env.pathExists dest = false then
      if env.mkdirOk backup_root = false then
        some { action := .actSkip, calls := [], success := false, slept := false }
      else
        let c := safe_clone env repo_url dest
        some { action := .actClone, calls := c.2, success := c.1, slept := c.1 }
    else
      let v := is_git_repo env dest
      if v.1 = false then
        some { action := .actSkip, calls := v.2, success := false, slept := false }
      else
        let d := has_uncommitted_changes env dest
        if d.1 then
          some { action := .actSkip, calls := v.2 ++ d.2, success := false, slept := false }
        else
          let p := safe_pull env dest
          some { action := .actPull, calls := v.2 ++ d.2 ++ p.2, success := p.1, slept := p.1 }

/-- The run loop of `main` (evergit.py lines 310-327): return exit code 2
when the backup root cannot be created; otherwise process every configured
repository — a per-repository exception (`none`) is caught by the
`try/except` in the loop and the iteration continues — and return 0. -/
def main_run (env : GitEnv) (backup_root : Str) (repos : List Str) :
    Nat × List (Option ProcOut) :=
  if env.mkdirOk backup_root = false then (2, [])
  else (0, repos.map (fun r => process_repo env r backup_root))

/-- Number of inter-repository sleeps performed during a run. -/
def runSleepCount (outs : List (Option ProcOut)) : Nat :=
  (outs.filterMap id).countP (fun o => o.slept)

/-- Number of repositories whose processing fully succeeded. -/
def runSuccessCount (outs : List (Option ProcOut)) : Nat :=
  (outs.filterMap id).countP (fun o => o.success)

/-- The path the engine derives for a URL under a backup root
(`dest = backup_root / stem` in `process_repo`, evergit.py lines 214-215);
the Path Resolver contract of the spec realized by the code. -/
def resolve (url : Str) (backup_root : Str) : Option Str :=
  (repo_name_from_url url).map (fun stem => pjoin backup_root stem)

/-- `_sleep` (evergit.py lines 270-278), in exact arithmetic: with
randomization on, `jitter = secs * 0.5` and the duration is
`max(0.0, uniform(secs - jitter, secs + jitter))`, where
`random.uniform(a, b) = a + (b - a) * r` for a draw `r ∈ [0, 1]`. -/
def sleepDuration (sleep_seconds : ℚ) (randomize : Bool) (r : ℚ) : ℚ :=
  if randomize then
    let jitter := sleep_seconds * (1 / 2)
    max 0 ((sleep_seconds - jitter) + ((sleep_seconds + jitter) - (sleep_seconds - jitter)) * r)
  else sleep_seconds

/-- Full argv of the `rev-parse` probe issued by `is_git_repo`. -/
def revParseArgv : List Str := [("git".data), ("rev-parse".data), ("--is-inside-work-tree".data)]

/-- Full argv of the porcelain status probe issued by `has_uncommitted_changes`. -/
def statusArgv : List Str := [("git".data), ("status".data), ("--porcelain".data)]

/-- Full argv of the first update attempt of `safe_pull`. -/
def ruArgv : List Str := [("git".data), ("remote".data), ("update".data)]

/-- Full argv of the second update attempt of `safe_pull`. -/
def faArgv : List Str := [("git".data), ("fetch".data), ("--all".data)]

/-- Full argv of the last update attempt of `safe_pull`. -/
def puArgv : List Str := [("git".data), ("pull".data)]

/-- Full argv of the clone command issued by `safe_clone`. -/
def cloneArgv (url dest : Str) : List Str :=
  [("git".data), ("clone".data), ("--mirror".data), url, dest]

/-- The `git clone --mirror url dest` call (no working directory). -/
def cloneCall (url dest : Str) : GitCall := { args := cloneArgv url dest, cwd := none }

/-- The `git remote update` call in the directory `dest`. -/
def ruCall (dest : Str) : GitCall := { args := ruArgv, cwd := some dest }

/-- The `git fetch --all` call in the directory `dest`. -/
def faCall (dest : Str) : GitCall := { args := faArgv, cwd := some dest }

/-- The `git pull` call in the directory `dest`. -/
def puCall (dest : Str) : GitCall := { args := puArgv, cwd := some dest }

/-- Exit status of `git remote update` in `dest` under `env`. -/
def ruRc (env : GitEnv) (dest : Str) : Int := (env.exec ruArgv (some dest)).returncode

/-- Exit status of `git fetch --all` in `dest` under `env`. -/
def faRc (env : GitEnv) (dest : Str) : Int := (env.exec faArgv (some dest)).returncode

/-- Exit status of `git pull` in `dest` under `env`. -/
def puRc (env : GitEnv) (dest : Str) : Int := (env.exec puArgv (some dest)).returncode

/-- Concrete environment: every path exists, every git command succeeds, and
the porcelain status reports a modified file. -/
def envDirty : GitEnv :=
  { exec := fun a _ =>
      if a = statusArgv then { returncode := 0, stdout := (" M f".data), stderr := [] }
      else { returncode := 0, stdout := [], stderr := [] },
    pathExists := fun _ => true,
    mkdirOk := fun _ => true }

/-- Concrete environment: every path exists; the porcelain status command
itself fails (exit 1, empty stdout); every other command succeeds. -/
def envStatusFails : GitEnv :=
  { exec := fun a _ =>
      if a = statusArgv then { returncode := 1, stdout := [], stderr := ("boom".data) }
      else { returncode := 0, stdout := [], stderr := [] },
    pathExists := fun _ => true,
    mkdirOk := fun _ => true }

/-- Concrete environment: no path exists, `mkdir` succeeds, every git
command succeeds with empty output. -/
def envFresh : GitEnv :=
  { exec := fun _ _ => { returncode := 0, stdout := [], stderr := [] },
    pathExists := fun _ => false,
    mkdirOk := fun _ => true }

/-- Concrete environment: no path exists, `mkdir` succeeds, every git
command fails with exit code 128. -/
def envCloneFails : GitEnv :=
  { exec := fun _ _ => { returncode := 128, stdout := [], stderr := ("fatal".data) },
    pathExists := fun _ => false,
    mkdirOk := fun _ => true }

/-- Concrete environment: every path exists, the status is clean,
`git remote update` and `git fetch --all` fail, `git pull` succeeds. -/
def envPullLast : GitEnv :=
  { exec := fun a _ =>
      if a = ruArgv || a = faArgv then { returncode := 1, stdout := [], stderr := [] }
      else { returncode := 0, stdout := [], stderr := [] },
    pathExists := fun _ => true,
    mkdirOk := fun _ => true }

/-! ### Helper lemmas on the string model -/

theorem mem_replaceChar {x c : Char} {rep l : Str} (h : x ∈ replaceChar c rep l) :
    x ∈ rep ∨ (x ∈ l ∧ x ≠ c) := by
  induction l with
  | nil => simp [replaceChar] at h
  | cons a t ih =>
    by_cases hac : a = c
    · simp only [replaceChar, if_pos hac] at h
      rcases List.mem_append.1 h with h1 | h2
      · exact Or.inl h1
      · rcases ih h2 with h3 | ⟨h4, h5⟩
        · exact Or.inl h3
        · exact Or.inr ⟨List.mem_cons_of_mem _ h4, h5⟩
    · simp only [replaceChar, if_neg hac] at h
      rcases List.mem_cons.1 h with rfl | h2
      · exact Or.inr ⟨List.mem_cons_self _ _, hac⟩
      · rcases ih h2 with h3 | ⟨h4, h5⟩
        · exact Or.inl h3
        · exact Or.inr ⟨List.mem_cons_of_mem _ h4, h5⟩

theorem sanitize_no_bad (s : Str) : ':' ∉ sanitize s ∧ '@' ∉ sanitize s ∧ ' ' ∉ sanitize s := by
  refine ⟨fun h => ?_, fun h => ?_, fun h => ?_⟩
  · rcases mem_replaceChar h with h1 | ⟨h2, _⟩
    · exact absurd h1 (by decide)
    · rcases mem_replaceChar h2 with h3 | ⟨h4, _⟩
      · exact absurd h3 (by decide)
      · rcases mem_replaceChar h4 with h5 | ⟨_, h6⟩
        · exact absurd h5 (by decide)
        · exact h6 rfl
  · rcases mem_replaceChar h with h1 | ⟨h2, _⟩
    · exact absurd h1 (by decide)
    · rcases mem_replaceChar h2 with h3 | ⟨_, h4⟩
      · exact absurd h3 (by decide)
      · exact h4 rfl
  · rcases mem_replaceChar h with h1 | ⟨_, h2⟩
    · exact absurd h1 (by decide)
    · exact h2 rfl

theorem pySplit_ne_nil (sep : Char) (s : Str) : pySplit sep s ≠ [] := by
  cases s with
  | nil => simp [pySplit]
  | cons a t =>
    simp only [pySplit]
    split
    · simp
    · split <;> simp

theorem two_le_pySplit_length (sep : Char) (s : Str) :
    2 ≤ (pySplit sep s).length ↔ sep ∈ s := by
  induction s with
  | nil => simp [pySplit]
  | cons a t ih =>
    by_cases h : a = sep
    · subst h
      have h1 : 1 ≤ (pySplit a t).length := by
        cases hq : pySplit a t with
        | nil => exact absurd hq (pySplit_ne_nil a t)
        | cons x xs => simp
      simp [pySplit]
      omega
    · cases hq : pySplit sep t with
      | nil => exact absurd hq (pySplit_ne_nil sep t)
      | cons h0 t0 =>
        simp only [pySplit, if_neg h, hq, List.length_cons]
        rw [hq, List.length_cons] at ih
        rw [List.mem_cons]
        constructor
        · intro hl
          exact Or.inr (ih.1 hl)
        · intro hm
          rcases hm with hm | hm
          · exact absurd hm.symm h
          · exact ih.2 hm

theorem pyRstrip_of_not_mem {c : Char} {s : Str} (h : c ∉ s) : pyRstrip c s = s := by
  unfold pyRstrip
  have hdw : s.reverse.dropWhile (fun x => x == c) = s.reverse := by
    cases hr : s.reverse with
    | nil => simp
    | cons a t =>
      have ha : a ∈ s := by
        rw [← List.mem_reverse, hr]
        exact List.mem_cons_self _ _
      have hne : ¬ a = c := fun he => h (he ▸ ha)
      simp [List.dropWhile_cons, hne]
  rw [hdw, List.reverse_reverse]

theorem pySplit_of_not_mem {c : Char} {s : Str} (h : c ∉ s) : pySplit c s = [s] := by
  induction s with
  | nil => simp [pySplit]
  | cons a t ih =>
    have ha : ¬ a = c := fun he => h (he ▸ List.mem_cons_self a t)
    have ht : c ∉ t := fun hm => h (List.mem_cons_of_mem _ hm)
    simp only [pySplit, if_neg ha, ih ht]

/-! ### Claim theorems -/

/-- C8: for every non-negative configured delay `d` with jitter enabled and
every random draw `r ∈ [0, 1]`, the computed sleep duration lies in
`[0.5 * d, 1.5 * d]`; in particular with `delay_seconds = 3` it lies in
`[1.5, 4.5]`. -/
theorem sleep_jitter_bounds (d r : ℚ) (hd : 0 ≤ d) (hr0 : 0 ≤ r) (hr1 : r ≤ 1) :
    d / 2 ≤ sleepDuration d true r ∧ sleepDuration d true r ≤ 3 * d / 2 ∧
    (d = 3 → (3 / 2 : ℚ) ≤ sleepDuration d true r ∧ sleepDuration d true r ≤ 9 / 2) := by
  have hdr : 0 ≤ d * r := mul_nonneg hd hr0
  have hdr1 : d * r ≤ d := by nlinarith
  have hkey : sleepDuration d true r = d / 2 + d * r := by
    unfold sleepDuration
    rw [if_pos rfl, max_eq_right (by nlinarith)]
    ring
  refine ⟨by rw [hkey]; linarith, by rw [hkey]; linarith, fun h3 => ?_⟩
  subst h3
  rw [hkey]
  constructor <;> linarith

/-- Witness for `sleep_jitter_bounds` at `d = 3`, `r = 1/2`. -/
theorem sleep_jitter_bounds_witness :
    (3 : ℚ) / 2 ≤ sleepDuration 3 true (1 / 2) ∧ sleepDuration 3 true (1 / 2) ≤ 3 * 3 / 2 ∧
    ((3 : ℚ) = 3 → (3 / 2 : ℚ) ≤ sleepDuration 3 true (1 / 2) ∧
      sleepDuration 3 true (1 / 2) ≤ 9 / 2) :=
  sleep_jitter_bounds 3 (1 / 2) (by norm_num) (by norm_num) (by norm_num)

/-- C2 counterexample: the two spec URLs do **not** resolve to the same
path, and the https URL does not resolve to `R/acme/widget`: the code keeps
the `.git` suffix and produces a flat `owner__name`-style directory, so for
the ssh form the owner segment is `git@example.com:acme` (sanitized). -/
theorem resolve_not_url_shape_invariant :
    resolve ("https://example.com/acme/widget.git".data) ("/b".data)
      ≠ resolve ("git@example.com:acme/widget.git".data) ("/b".data) ∧
    resolve ("https://example.com/acme/widget.git".data) ("/b".data)
      ≠ some ("/b/acme/widget".data) := by
  constructor
  · decide
  · decide

/-- C2 amended: for every backup root `R`, the https URL resolves to
`R/acme__widget.git` and the ssh URL resolves to
`R/git__example.com__acme__widget.git` — a single flat path component with
the owner joined by `__`, the `.git` suffix kept, and `:`/`@` rewritten to
`__`. -/
theorem resolve_flat_layout (R : Str) :
    resolve ("https://example.com/acme/widget.git".data) R
      = some (pjoin R ("acme__widget.git".data)) ∧
    resolve ("git@example.com:acme/widget.git".data) R
      = some (pjoin R ("git__example.com__acme__widget.git".data)) := by
  have h1 : repo_name_from_url ("https://example.com/acme/widget.git".data)
      = some ("acme__widget.git".data) := by decide
  have h2 : repo_name_from_url ("git@example.com:acme/widget.git".data)
      = some ("git__example.com__acme__widget.git".data) := by decide
  exact ⟨by simp [resolve, h1], by simp [resolve, h2]⟩

/-- C9 counterexample: on input `"abc/"` (every `/` is trailing),
`repo_name_from_url` raises `IndexError` from the `[-2]` index (modelled as
`none`) rather than returning a directory name. -/
theorem repo_name_raises_trailing_slash : repo_name_from_url ("abc/".data) = none := by
  decide

/-- C9 amended: every *successful* return of `repo_name_from_url` contains
no `:`, `@`, or space; the function raises (returns `none`) exactly on the
inputs that contain a `/` but whose rstripped form contains none, i.e.
whose every `/` belongs to the trailing run. -/
theorem repo_name_sanitized (url : Str) :
    (∀ r, repo_name_from_url url = some r → (':' ∉ r ∧ '@' ∉ r ∧ ' ' ∉ r)) ∧
    (repo_name_from_url url = none ↔ ('/' ∈ url ∧ '/' ∉ pyRstrip '/' url)) := by
  constructor
  · intro r hr
    simp only [repo_name_from_url] at hr
    split at hr
    · split at hr
      · split at hr
        · rw [Option.some.injEq] at hr
          exact hr ▸ sanitize_no_bad _
        · rw [Option.some.injEq] at hr
          exact hr ▸ sanitize_no_bad _
      · exact absurd hr (by simp)
    · rw [Option.some.injEq] at hr
      exact hr ▸ sanitize_no_bad _
  · simp only [repo_name_from_url]
    by_cases hm : '/' ∈ url
    · by_cases hl : 2 ≤ (pySplit '/' (pyRstrip '/' url)).length
      · rw [if_pos hm, if_pos hl]
        have hmem : '/' ∈ pyRstrip '/' url := (two_le_pySplit_length _ _).1 hl
        constructor
        · intro hc
          split at hc <;> exact absurd hc (by simp)
        · intro hc
          exact absurd hmem hc.2
      · rw [if_pos hm, if_neg hl]
        have hmem : '/' ∉ pyRstrip '/' url := fun hin => hl ((two_le_pySplit_length _ _).2 hin)
        simp [hm, hmem]
    · rw [if_neg hm]
      simp [hm]

/-- Witness for `repo_name_sanitized` at the url `"a b:c@d/e"`, whose
resolved name is `"a_b__c__d__e"`. -/
theorem repo_name_sanitized_witness :
    ':' ∉ ("a_b__c__d__e".data) ∧ '@' ∉ ("a_b__c__d__e".data) ∧ ' ' ∉ ("a_b__c__d__e".data) :=
  (repo_name_sanitized (("a b:c@d/e").data)).1 (("a_b__c__d__e").data) (by decide)

/-- C4 counterexample: the input `"not-a-valid-url"` is **not** rejected:
resolution returns the string itself as the directory name, and the engine
then runs a git clone command for it (which here fails with exit 128). -/
theorem malformed_url_is_cloned :
    repo_name_from_url ("not-a-valid-url".data) = some ("not-a-valid-url".data) ∧
    (process_repo envCloneFails ("not-a-valid-url".data) ("/b".data)).map (fun o => o.calls)
      = some ([cloneCall ("not-a-valid-url".data) ("/b/not-a-valid-url".data)]) := by
  constructor
  · decide
  · decide

/-- C4 amended: a URL with no `/` separator is accepted, not rejected: its
sanitized text becomes the flat directory name, a clone *is* attempted for
it when absent, and the coordinator still processes all configured entries. -/
theorem no_separator_url_cloned (env : GitEnv) (url root : Str) (rest : List Str)
    (hsep : '/' ∉ url)
    (habs : env.pathExists (pjoin root (sanitize url)) = false)
    (hmk : env.mkdirOk root = true) :
    repo_name_from_url url = some (sanitize url) ∧
    (∃ o, process_repo env url root = some o ∧ o.action = RepoAction.actClone ∧
      o.calls = [cloneCall url (pjoin root (sanitize url))]) ∧
    (main_run env root (url :: rest)).2.length = rest.length + 1 := by
  have hname : repo_name_from_url url = some (sanitize url) := by
    simp only [repo_name_from_url, pyRstrip_of_not_mem hsep, pySplit_of_not_mem hsep]
    rw [if_neg hsep]
    simp
  refine ⟨hname, ?_, ?_⟩
  · simp only [process_repo, hname]
    rw [if_pos habs]
    rw [if_neg (by rw [hmk]; exact fun hc => Bool.noConfusion hc)]
    exact ⟨_, rfl, rfl, rfl⟩
  · simp only [main_run]
    rw [if_neg (by rw [hmk]; exact fun hc => Bool.noConfusion hc)]
    simp

/-- Witness for `no_separator_url_cloned` at `"not-a-valid-url"` under
`envCloneFails`. -/
theorem no_separator_url_cloned_witness :
    repo_name_from_url ("not-a-valid-url".data) = some (sanitize ("not-a-valid-url".data)) ∧
    (∃ o, process_repo envCloneFails ("not-a-valid-url".data) ("/b".data) = some o ∧
      o.action = RepoAction.actClone ∧
      o.calls = [cloneCall ("not-a-valid-url".data)
        (pjoin ("/b".data) (sanitize ("not-a-valid-url".data)))]) ∧
    (main_run envCloneFails ("/b".data) (("not-a-valid-url".data) :: [])).2.length
      = ([] : List Str).length + 1 :=
  no_separator_url_cloned envCloneFails ("not-a-valid-url".data) ("/b".data) []
    (by decide) rfl rfl

theorem is_git_repo_exists {env : GitEnv} {p : Str} (h : (is_git_repo env p).1 = true) :
    env.pathExists p = true := by
  cases hpe : env.pathExists p with
  | true => rfl
  | false =>
    unfold is_git_repo at h
    rw [if_pos hpe] at h
    simp at h

theorem is_git_repo_calls (env : GitEnv) (p : Str) :
    ∀ c ∈ (is_git_repo env p).2, c.args = revParseArgv ∧ c.cwd = some p := by
  intro c hc
  unfold is_git_repo at hc
  split at hc
  · simp at hc
  · split at hc
    · simp at hc
    · simp only [run_git_command] at hc
      rw [List.mem_singleton] at hc
      subst hc
      exact ⟨rfl, rfl⟩

theorem has_uncommitted_calls (env : GitEnv) (p : Str) :
    (has_uncommitted_changes env p).2 = [{ args := statusArgv, cwd := some p }] := rfl

/-- C1: whenever the destination of a repository exists, is a valid git
repository, and the porcelain status reports uncommitted changes,
`process_repo` takes the skip branch: it does not sleep, reports no
success, and the only git commands it issued are the two non-mutating
probes (`rev-parse --is-inside-work-tree`, `status --porcelain`), each run
inside the repository directory — no clone, pull or fetch. -/
theorem dirty_repo_skipped (env : GitEnv) (url root stem : Str)
    (hstem : repo_name_from_url url = some stem)
    (hvalid : (is_git_repo env (pjoin root stem)).1 = true)
    (hdirty : (has_uncommitted_changes env (pjoin root stem)).1 = true) :
    ∃ o, process_repo env url root = some o ∧ o.action = RepoAction.actSkip ∧
      o.success = false ∧ o.slept = false ∧
      ∀ c ∈ o.calls, (c.args = revParseArgv ∨ c.args = statusArgv) ∧
        c.cwd = some (pjoin root stem) := by
  have hex : env.pathExists (pjoin root stem) = true := is_git_repo_exists hvalid
  have hpr : process_repo env url root = some
      { action := RepoAction.actSkip,
        calls := (is_git_repo env (pjoin root stem)).2
          ++ (has_uncommitted_changes env (pjoin root stem)).2,
        success := false, slept := false } := by
    simp only [process_repo, hstem]
    rw [if_neg (by rw [hex]; exact fun hc => Bool.noConfusion hc)]
    rw [if_neg (by rw [hvalid]; exact fun hc => Bool.noConfusion hc)]
    rw [if_pos hdirty]
  refine ⟨_, hpr, rfl, rfl, rfl, ?_⟩
  intro c hc
  rcases List.mem_append.1 hc with h1 | h2
  · rcases is_git_repo_calls env _ c h1 with ⟨ha, hw⟩
    exact ⟨Or.inl ha, hw⟩
  · rw [has_uncommitted_calls, List.mem_singleton] at h2
    subst h2
    exact ⟨Or.inr rfl, rfl⟩

/-- Witness for `dirty_repo_skipped` under `envDirty` at url `"h/o/r"`. -/
theorem dirty_repo_skipped_witness :
    ∃ o, process_repo envDirty ("h/o/r".data) ("/b".data) = some o ∧
      o.action = RepoAction.actSkip ∧ o.success = false ∧ o.slept = false ∧
      ∀ c ∈ o.calls, (c.args = revParseArgv ∨ c.args = statusArgv) ∧
        c.cwd = some (pjoin ("/b".data) ("o__r".data)) :=
  dirty_repo_skipped envDirty ("h/o/r".data) ("/b".data) ("o__r".data)
    (by decide) (by decide) (by decide)

/-- C3 counterexample: under `envStatusFails` the status command exits 1
(with empty stdout), yet the prober reports *clean* — not dirty — and the
engine proceeds to the update (Pull) path instead of skipping. -/
theorem status_failure_not_dirty :
    (has_uncommitted_changes envStatusFails ("/b/o__r".data)).1 = false ∧
    (envStatusFails.exec statusArgv (some ("/b/o__r".data))).returncode ≠ 0 ∧
    (process_repo envStatusFails ("h/o/r".data) ("/b".data)).map (fun o => o.action)
      = some RepoAction.actPull := by
  refine ⟨by decide, by decide, by decide⟩

/-- C3 amended: the prober's classification depends only on the captured
stdout of the status command, never on its exit status: whenever the
stripped stdout is empty — including when the command failed with a
non-zero exit status — the repository is treated as clean and the engine
proceeds to the update path rather than skipping. -/
theorem status_failure_treated_clean (env : GitEnv) (url root stem : Str)
    (hstem : repo_name_from_url url = some stem)
    (hvalid : (is_git_repo env (pjoin root stem)).1 = true)
    (hout : pyStrip ((env.exec statusArgv (some (pjoin root stem))).stdout) = []) :
    (has_uncommitted_changes env (pjoin root stem)).1 = false ∧
    (process_repo env url root).map (fun o => o.action) = some RepoAction.actPull := by
  have hcl : (has_uncommitted_changes env (pjoin root stem)).1 = false := by
    simp only [has_uncommitted_changes, run_git_command]
    simp only [statusArgv] at hout
    rw [hout]
    rfl
  refine ⟨hcl, ?_⟩
  have hex : env.pathExists (pjoin root stem) = true := is_git_repo_exists hvalid
  simp only [process_repo, hstem]
  rw [if_neg (by rw [hex]; exact fun hc => Bool.noConfusion hc)]
  rw [if_neg (by rw [hvalid]; exact fun hc => Bool.noConfusion hc)]
  rw [if_neg (by rw [hcl]; exact fun hc => Bool.noConfusion hc)]
  rfl

/-- Witness for `status_failure_treated_clean` under `envStatusFails`. -/
theorem status_failure_treated_clean_witness :
    (has_uncommitted_changes envStatusFails (pjoin ("/b".data) ("o__r".data))).1 = false ∧
    (process_repo envStatusFails ("h/o/r".data) ("/b".data)).map (fun o => o.action)
      = some RepoAction.actPull :=
  status_failure_treated_clean envStatusFails ("h/o/r".data) ("/b".data) ("o__r".data)
    (by decide) (by decide) (by decide)

/-- C6: a run exits with 0 or 2 and with 2 exactly when the backup root
cannot be created; when the root is writable the run exits 0 and every
configured repository is processed (the per-repository `try/except` keeps
the loop going past failures, including raised exceptions, modelled as
`none` entries). -/
theorem run_exit_policy (env : GitEnv) (root : Str) (repos : List Str) :
    ((main_run env root repos).1 = 0 ∨ (main_run env root repos).1 = 2) ∧
    ((main_run env root repos).1 = 2 ↔ env.mkdirOk root = false) ∧
    (env.mkdirOk root = true →
      (main_run env root repos).1 = 0 ∧
      (main_run env root repos).2 = repos.map (fun r => process_repo env r root) ∧
      (main_run env root repos).2.length = repos.length) := by
  unfold main_run
  cases hmk : env.mkdirOk root with
  | false => simp
  | true => simp

/-- Witness for `run_exit_policy` under `envFresh` with one repository. -/
theorem run_exit_policy_witness :
    ((main_run envFresh ("/b".data) ([("h/o/r".data)])).1 = 0 ∨
      (main_run envFresh ("/b".data) ([("h/o/r".data)])).1 = 2) ∧
    ((main_run envFresh ("/b".data) ([("h/o/r".data)])).1 = 2 ↔
      envFresh.mkdirOk ("/b".data) = false) ∧
    (envFresh.mkdirOk ("/b".data) = true →
      (main_run envFresh ("/b".data) ([("h/o/r".data)])).1 = 0 ∧
      (main_run envFresh ("/b".data) ([("h/o/r".data)])).2
        = ([("h/o/r".data)]).map (fun r => process_repo envFresh r ("/b".data)) ∧
      (main_run envFresh ("/b".data) ([("h/o/r".data)])).2.length
        = ([("h/o/r".data)]).length) :=
  run_exit_policy envFresh ("/b".data) ([("h/o/r".data)])

theorem safe_pull_update_spec (env : GitEnv) (dest : Str) (acc : List GitCall) :
    (safe_pull_update env dest acc).1
      = (ruRc env dest == 0 || (faRc env dest == 0 || puRc env dest == 0)) ∧
    (safe_pull_update env dest acc).2 = acc ++
      (if ruRc env dest == 0 then [ruCall dest]
       else if faRc env dest == 0 then [ruCall dest, faCall dest]
       else [ruCall dest, faCall dest, puCall dest]) := by
  simp only [safe_pull_update, run_git_command, ruCall, faCall, puCall]
  simp only [ruRc, faRc, puRc, ruArgv, faArgv, puArgv]
  by_cases h1 : (env.exec ([("git".data), ("remote".data), ("update".data)])
      (some dest)).returncode == 0
  · simp [h1]
  · by_cases h2 : (env.exec ([("git".data), ("fetch".data), ("--all".data)])
        (some dest)).returncode == 0
    · simp [h1, h2]
    · simp [h1, h2]

theorem safe_pull_clean_spec (env : GitEnv) (dest : Str)
    (hvalid : (is_git_repo env dest).1 = true)
    (hclean : (has_uncommitted_changes env dest).1 = false) :
    (safe_pull env dest).1
      = (ruRc env dest == 0 || (faRc env dest == 0 || puRc env dest == 0)) ∧
    ∃ probe, (safe_pull env dest).2 = probe ++
      (if ruRc env dest == 0 then [ruCall dest]
       else if faRc env dest == 0 then [ruCall dest, faCall dest]
       else [ruCall dest, faCall dest, puCall dest]) ∧
      ∀ c ∈ probe, (c.args = revParseArgv ∨ c.args = statusArgv) ∧ c.cwd = some dest := by
  have hmem : ∀ acc : List GitCall,
      (∀ c ∈ acc, (c.args = revParseArgv ∨ c.args = statusArgv) ∧ c.cwd = some dest) →
      (safe_pull env dest = safe_pull_update env dest acc) →
      (safe_pull env dest).1
        = (ruRc env dest == 0 || (faRc env dest == 0 || puRc env dest == 0)) ∧
      ∃ probe, (safe_pull env dest).2 = probe ++
        (if ruRc env dest == 0 then [ruCall dest]
         else if faRc env dest == 0 then [ruCall dest, faCall dest]
         else [ruCall dest, faCall dest, puCall dest]) ∧
        ∀ c ∈ probe, (c.args = revParseArgv ∨ c.args = statusArgv) ∧ c.cwd = some dest := by
    intro acc hacc heq
    rw [heq]
    rcases safe_pull_update_spec env dest acc with ⟨hu1, hu2⟩
    exact ⟨hu1, acc, hu2, hacc⟩
  have hprobe1 : ∀ c ∈ (is_git_repo env dest).2,
      (c.args = revParseArgv ∨ c.args = statusArgv) ∧ c.cwd = some dest := by
    intro c hc
    rcases is_git_repo_calls env dest c hc with ⟨ha, hw⟩
    exact ⟨Or.inl ha, hw⟩
  have heq : safe_pull env dest = safe_pull_update env dest
        ((is_git_repo env dest).2 ++ (has_uncommitted_changes env dest).2) ∨
      safe_pull env dest = safe_pull_update env dest (is_git_repo env dest).2 := by
    unfold safe_pull
    rw [if_neg (by rw [hvalid]; exact fun hc => Bool.noConfusion hc)]
    by_cases hmeta : (env.pathExists (pjoin dest (".git".data))
        || env.pathExists (pjoin dest ("HEAD".data))) = true
    · rw [if_pos hmeta]
      rw [if_neg (by rw [hclean]; exact fun hc => Bool.noConfusion hc)]
      exact Or.inl rfl
    · rw [if_neg hmeta]
      exact Or.inr rfl
  rcases heq with heq | heq
  · refine hmem _ ?_ heq
    intro c hc
    rcases List.mem_append.1 hc with h1 | h2
    · exact hprobe1 c h1
    · rw [has_uncommitted_calls, List.mem_singleton] at h2
      subst h2
      exact ⟨Or.inr rfl, rfl⟩
  · exact hmem _ hprobe1 heq

/-- C10: on a valid repository with no uncommitted changes, `safe_pull`
tries `git remote update`, then `git fetch --all`, then `git pull` — each
run in the repository directory, in that order, stopping at the first one
that exits zero — and returns true iff one of the three exits zero; the
only other commands it issues are the non-mutating probes. -/
theorem update_fallback_order (env : GitEnv) (dest : Str)
    (hvalid : (is_git_repo env dest).1 = true)
    (hclean : (has_uncommitted_changes env dest).1 = false) :
    ((safe_pull env dest).1 = true ↔
      (ruRc env dest = 0 ∨ faRc env dest = 0 ∨ puRc env dest = 0)) ∧
    ∃ probe, (safe_pull env dest).2 = probe ++
      (if ruRc env dest == 0 then [ruCall dest]
       else if faRc env dest == 0 then [ruCall dest, faCall dest]
       else [ruCall dest, faCall dest, puCall dest]) ∧
      ∀ c ∈ probe, (c.args = revParseArgv ∨ c.args = statusArgv) ∧ c.cwd = some dest := by
  rcases safe_pull_clean_spec env dest hvalid hclean with ⟨h1, h2⟩
  refine ⟨?_, h2⟩
  rw [h1]
  simp [Bool.or_eq_true, beq_iff_eq]

/-- Witness for `update_fallback_order` under `envPullLast`, where
`remote update` and `fetch --all` fail and `pull` succeeds. -/
theorem update_fallback_order_witness :
    ((safe_pull envPullLast ("/d".data)).1 = true ↔
      (ruRc envPullLast ("/d".data) = 0 ∨ faRc envPullLast ("/d".data) = 0 ∨
        puRc envPullLast ("/d".data) = 0)) ∧
    ∃ probe, (safe_pull envPullLast ("/d".data)).2 = probe ++
      (if ruRc envPullLast ("/d".data) == 0 then [ruCall ("/d".data)]
       else if faRc envPullLast ("/d".data) == 0 then [ruCall ("/d".data), faCall ("/d".data)]
       else [ruCall ("/d".data), faCall ("/d".data), puCall ("/d".data)]) ∧
      ∀ c ∈ probe, (c.args = revParseArgv ∨ c.args = statusArgv) ∧
        c.cwd = some ("/d".data) :=
  update_fallback_order envPullLast ("/d".data) (by decide) (by decide)

/-- C5 counterexample: the clone argv issued for an absent repository is
`git clone --mirror <url> <path>` — not `clone <url> <path>` and not
`clone --progress <url> <path>` — and an update of a clean existing
repository completes successfully with `git remote update` alone: no
`pull` command is issued at all. -/
theorem clone_mirror_not_plain :
    (process_repo envFresh ("h/o/r".data) ("/b".data)).map (fun o => o.calls)
      = some ([cloneCall ("h/o/r".data) ("/b/o__r".data)]) ∧
    (cloneCall ("h/o/r".data) ("/b/o__r".data)).args
      ≠ [("git".data), ("clone".data), ("h/o/r".data), ("/b/o__r".data)] ∧
    (cloneCall ("h/o/r".data) ("/b/o__r".data)).args
      ≠ [("git".data), ("clone".data), ("--progress".data), ("h/o/r".data), ("/b/o__r".data)] ∧
    (safe_pull envStatusFails ("/d".data)).1 = true ∧
    puCall ("/d".data) ∉ (safe_pull envStatusFails ("/d".data)).2 := by
  refine ⟨by decide, by decide, by decide, by decide, by decide⟩

/-- C5 amended: cloning an absent repository invokes
`git clone --mirror <url> <path>` with no working directory (no
`--progress`), and updating a clean existing repository invokes, with the
working directory set to the target path, `git remote update`, falling back
to `git fetch --all` and then to `git pull`, stopping at the first exit
status 0. -/
theorem clone_update_command_shapes (env : GitEnv) (url dest : Str)
    (hvalid : (is_git_repo env dest).1 = true)
    (hclean : (has_uncommitted_changes env dest).1 = false) :
    (safe_clone env url dest).2 = [cloneCall url dest] ∧
    ∃ probe, (safe_pull env dest).2 = probe ++
      (if ruRc env dest == 0 then [ruCall dest]
       else if faRc env dest == 0 then [ruCall dest, faCall dest]
       else [ruCall dest, faCall dest, puCall dest]) ∧
      ∀ c ∈ probe, c.cwd = some dest := by
  refine ⟨rfl, ?_⟩
  rcases safe_pull_clean_spec env dest hvalid hclean with ⟨-, probe, hp, hc⟩
  exact ⟨probe, hp, fun c hm => (hc c hm).2⟩

/-- Witness for `clone_update_command_shapes` under `envStatusFails`. -/
theorem clone_update_command_shapes_witness :
    (safe_clone envStatusFails ("h/o/r".data) ("/d".data)).2
      = [cloneCall ("h/o/r".data) ("/d".data)] ∧
    ∃ probe, (safe_pull envStatusFails ("/d".data)).2 = probe ++
      (if ruRc envStatusFails ("/d".data) == 0 then [ruCall ("/d".data)]
       else if faRc envStatusFails ("/d".data) == 0
       then [ruCall ("/d".data), faCall ("/d".data)]
       else [ruCall ("/d".data), faCall ("/d".data), puCall ("/d".data)]) ∧
      ∀ c ∈ probe, c.cwd = some ("/d".data) :=
  clone_update_command_shapes envStatusFails ("h/o/r".data) ("/d".data)
    (by decide) (by decide)

/-- C7 counterexample: with a single repository that clones successfully,
the coordinator sleeps once — after the last (and only) repository —
whereas the claim mandates `n - 1 = 0` suspensions. -/
theorem sleep_count_not_n_minus_one :
    runSleepCount ((main_run envFresh ("/b".data) ([("h/o/r".data)])).2) = 1 ∧
    ([("h/o/r".data)]).length - 1 = 0 := by
  refine ⟨by decide, by decide⟩

/-- C7 amended: the inter-operation delay runs after each repository whose
processing fully succeeded — including the last one — and does not run
after a repository that was skipped or whose operation failed: per
repository the sleep flag equals the success flag, so across a run the
number of sleeps equals the number of successful outcomes. -/
theorem sleep_follows_success (env : GitEnv) (root : Str) (repos : List Str) :
    runSleepCount ((main_run env root repos).2)
      = runSuccessCount ((main_run env root repos).2) ∧
    ∀ url o, process_repo env url root = some o → o.slept = o.success := by
  have hpo : ∀ url o, process_repo env url root = some o → o.slept = o.success := by
    intro url o h
    cases hn : repo_name_from_url url with
    | none =>
      simp only [process_repo, hn] at h
      exact absurd h (by simp)
    | some stem =>
      simp only [process_repo, hn] at h
      split at h
      · split at h
        · rw [Option.some.injEq] at h
          subst h
          rfl
        · rw [Option.some.injEq] at h
          subst h
          rfl
      · split at h
        · rw [Option.some.injEq] at h
          subst h
          rfl
        · split at h
          · rw [Option.some.injEq] at h
            subst h
            rfl
          · rw [Option.some.injEq] at h
            subst h
            rfl
  refine ⟨?_, hpo⟩
  unfold main_run runSleepCount runSuccessCount
  by_cases hmk : env.mkdirOk root = false
  · rw [if_pos hmk]
    rfl
  · rw [if_neg hmk]
    apply List.countP_congr
    intro o ho
    rw [List.mem_filterMap] at ho
    obtain ⟨oo, hoo, hid⟩ := ho
    rw [List.mem_map] at hoo
    obtain ⟨url, -, hfu⟩ := hoo
    have hslept : o.slept = o.success := by
      apply hpo url o
      rw [hfu]
      exact hid
    rw [hslept]

/-- Witness for `sleep_follows_success` under `envFresh`. -/
theorem sleep_follows_success_witness :
    runSleepCount ((main_run envFresh ("/b".data) ([("h/o/r".data)])).2)
      = runSuccessCount ((main_run envFresh ("/b".data) ([("h/o/r".data)])).2) :=
  (sleep_follows_success envFresh ("/b".data) ([("h/o/r".data)])).1
